import Mathlib

/-!
# Verification of the `sapien` dual-store memory pipeline

Shallow embedding of `src/sapien/client.py` (`SapienClient`): every message is
durably recorded in a MongoDB collection (the Record Store) and, asynchronously,
embedded into a vector that is upserted into a Qdrant collection (the Vector
Index) for session-scoped similarity retrieval.

Modelling conventions, all taken from the source:

* Mongo `ObjectId`s are assigned at insert; we model the generator as a
  monotonic counter `nextId : Nat`.  The Qdrant point id is `str(message_id)`
  and the retrieval path converts it back with `bson.ObjectId(i)`; since this
  string round trip is exact we keep both ids as `Nat`.
* `datetime` timestamps are modelled as `Nat`; `datetime.utcnow()` becomes an
  explicit `now` argument.
* `SentenceTransformer.encode` returns a float32 numpy array.  We model a
  float32 value by its 32-bit pattern (a `Nat < 2^32`), so a vector is a
  `List Nat` and the model is an abstract parameter `encode : String → List Nat`
  (the spec assumes `encode` deterministic).  `astype(np.float32)` is the
  identity on a float32 array; `.tolist()` converts each float32 to the exactly
  representable float64 of the same value, which is injective and inverted by
  float32 conversion, so at the bit-pattern level it is also the identity;
  `.tobytes()` serialises each 32-bit word in 4 little-endian bytes.
* The cosine-similarity score used by Qdrant's search is an abstract parameter
  `score : List Nat → List Nat → Int` (query vector, point vector ↦ score);
  Qdrant returns hits sorted by score descending, truncated to `limit`.
* A Mongo document without an `embedding` key is `embedding = none`.
* `asyncio.create_task(self._embed_and_upsert(mid))` is fire-and-forget: the
  scheduled task is recorded in a `pending` queue and executed by a separate
  step (`runNextTask`); exceptions escaping the coroutine stay inside the task
  (asyncio only logs them), which we model by returning them in a side channel
  `Option TaskError` that is never part of a caller-visible result.
* Fallibility of the external stores is modelled by explicit `Bool` flags
  (`writeOk`, `embedOk`, `updateOk`, `upsertOk`): `true` means the call
  succeeds, `false` means it raises.
-/

namespace Sapien

/-- A message document of the `sapien_messages` collection
(`msg_doc` in `add_message`, plus the optional `embedding` field set by
`_embed_and_upsert`). -/
structure MsgDoc where
  session_id : String
  role : String
  content : String
  timestamp : Nat
  /-- Binary float32 embedding bytes; `none` models an absent key. -/
  embedding : Option (List Nat)
deriving DecidableEq, Repr

/-- A Qdrant point of the `llm_memory` collection
(`models.PointStruct(id=str(message_id), vector=..., payload={"session_id": ...})`). -/
structure Point where
  id : Nat
  vector : List Nat
  session_id : String
deriving DecidableEq, Repr

/-- A Qdrant collection as provisioned by `ensure_collection`
(`create_collection(collection_name=..., vectors_config=VectorParams(size=..., distance=...))`). -/
structure QCollection where
  name : String
  size : Nat
  distance : String
deriving DecidableEq, Repr

/-- A Mongo index as created by `init_indexes`: key list with direction
(1 ascending, -1 descending), `unique` flag, optional TTL (`expireAfterSeconds`). -/
structure MongoIndex where
  keys : List (String × Int)
  unique : Bool
  expireAfterSeconds : Option Nat
deriving DecidableEq, Repr

/-- The observable state of the two stores plus the pipeline's in-flight
background tasks.

* `messages`: the `sapien_messages` Mongo collection, an id-keyed document
  list in insertion order;
* `points`: the `llm_memory` Qdrant collection;
* `pending`: identities of scheduled but not yet executed background embedding
  tasks (`asyncio.create_task` calls);
* `nextId`: the `ObjectId` generator;
* `qdrantCollections`, `sessionIndexes`, `messageIndexes`: provisioning state
  touched by `ensure_collection` / `init_indexes`. -/
structure SysState where
  messages : List (Nat × MsgDoc)
  points : List Point
  pending : List Nat
  nextId : Nat
  qdrantCollections : List QCollection
  sessionIndexes : List MongoIndex
  messageIndexes : List MongoIndex
deriving DecidableEq, Repr

/-- The empty deployment: both stores empty, nothing provisioned. -/
def initState : SysState :=
  { messages := [], points := [], pending := [], nextId := 0,
    qdrantCollections := [], sessionIndexes := [], messageIndexes := [] }

/-- Errors surfaced synchronously to a caller: `ValueError` for a bad role,
a store exception for a failed durable write. -/
inductive SapienError where
  | invalidRole
  | storeUnavailable
deriving DecidableEq, Repr

/-- Errors arising inside the background coroutine `_embed_and_upsert`;
asyncio keeps them in the task object and only logs them. -/
inductive TaskError where
  | embedFail
  | updateFail
  | upsertFail
deriving DecidableEq, Repr

/-- Mongo `find_one({"_id": mid})` on the messages collection. -/
def findDoc (msgs : List (Nat × MsgDoc)) (mid : Nat) : Option MsgDoc :=
  (msgs.find? (fun p => p.1 == mid)).map Prod.snd

/-- Mongo `update_one({"_id": mid}, {"$set": {"embedding": bytes}})`:
sets exactly the `embedding` field of the document keyed by `mid`. -/
def setEmbedding (msgs : List (Nat × MsgDoc)) (mid : Nat) (bytes : List Nat) :
    List (Nat × MsgDoc) :=
  msgs.map (fun p => if p.1 = mid then (p.1, { p.2 with embedding := some bytes }) else p)

/-- Qdrant `upsert`: replaces any point with the same id, else inserts. -/
def upsertPoint (pts : List Point) (p : Point) : List Point :=
  pts.filter (fun q => decide (q.id ≠ p.id)) ++ [p]

/-- Serialise one float32 bit pattern into its 4 little-endian bytes
(one word of `np.ndarray.tobytes` on a float32 array). -/
def f32ToBytes (w : Nat) : List Nat :=
  [w % 256, w / 256 % 256, w / 65536 % 256, w / 16777216 % 256]

/-- `vec_np.astype(np.float32).tobytes()`: the full byte string of a vector. -/
def vecToBytes (v : List Nat) : List Nat :=
  v.flatMap f32ToBytes

/-- Decode a float32 byte string back into the list of 32-bit words
(little-endian, 4 bytes per word). -/
def bytesToF32s : List Nat → List Nat
  | b0 :: b1 :: b2 :: b3 :: rest =>
      (b0 + 256 * b1 + 65536 * b2 + 16777216 * b3) :: bytesToF32s rest
  | _ => []

/-- `SapienClient.add_message(session_id, role, content, timestamp=None)`.
Validates the role (`ValueError` before any I/O), defaults the timestamp to
`datetime.utcnow()` (the `now` argument), performs the single durable
`insert_one` (which fails iff `writeOk = false`, propagating the store error
with nothing written), then schedules — without awaiting — one background
`_embed_and_upsert` task for the new id and returns the id. -/
def add_message (writeOk : Bool) (s : SysState)
    (session_id role content : String) (now : Nat) (timestamp : Option Nat) :
    Except SapienError Nat × SysState :=
  if role ≠ "user" ∧ role ≠ "assistant" then
    (.error .invalidRole, s)
  else
    let ts := timestamp.getD now
    let msg_doc : MsgDoc :=
      { session_id := session_id, role := role, content := content,
        timestamp := ts, embedding := none }
    if writeOk then
      let message_id := s.nextId
      (.ok message_id,
        { s with
          messages := s.messages ++ [(message_id, msg_doc)],
          nextId := s.nextId + 1,
          pending := s.pending ++ [message_id] })
    else
      (.error .storeUnavailable, s)

/-- `SapienClient._embed_and_upsert(message_id)`: re-read the message by id
(absent → return silently); encode its content; store the float32 bytes in
Mongo (`update_one` with `$set: {embedding: ...}`); upsert the Qdrant point
`{id, vector, payload: {session_id}}`.  The three fallible steps are guarded
by `embedOk` / `updateOk` / `upsertOk`; a `false` flag raises at that step,
leaving the effects performed so far, and the exception stays in the returned
side channel (asyncio task object) — it reaches no caller. -/
def embed_and_upsert (encode : String → List Nat)
    (embedOk updateOk upsertOk : Bool) (s : SysState) (message_id : Nat) :
    SysState × Option TaskError :=
  match findDoc s.messages message_id with
  | none => (s, none)
  | some msg_doc =>
    if !embedOk then (s, some .embedFail)
    else
      let vec := encode msg_doc.content
      let vec_bytes := vecToBytes vec
      if !updateOk then (s, some .updateFail)
      else
        let s1 := { s with messages := setEmbedding s.messages message_id vec_bytes }
        if !upsertOk then (s1, some .upsertFail)
        else
          let point : Point :=
            { id := message_id, vector := vec, session_id := msg_doc.session_id }
          ({ s1 with points := upsertPoint s1.points point }, none)

/-- Run the oldest scheduled background task, if any (the asyncio event loop
picking up a task created by `add_message`). -/
def runNextTask (encode : String → List Nat)
    (embedOk updateOk upsertOk : Bool) (s : SysState) :
    SysState × Option TaskError :=
  match s.pending with
  | [] => (s, none)
  | mid :: rest =>
      embed_and_upsert encode embedOk updateOk upsertOk { s with pending := rest } mid

/-- One `add_message` call followed by the event loop running the next
background task.  The first component is everything the caller of
`add_message` observes (its return value or synchronous exception); the
`Option TaskError` is the exception, if any, kept inside the task object. -/
def addMessageThenTask (encode : String → List Nat)
    (embedOk updateOk upsertOk : Bool) (s : SysState)
    (session_id role content : String) (now : Nat) (timestamp : Option Nat) :
    Except SapienError Nat × SysState × Option TaskError :=
  match add_message true s session_id role content now timestamp with
  | (.error e, s1) => (.error e, s1, none)
  | (.ok mid, s1) =>
      let r := runNextTask encode embedOk updateOk upsertOk s1
      (.ok mid, r.1, r.2)

/-- Insert a point into a score-descending list (stable). -/
def insertByScore (sc : Point → Int) (p : Point) : List Point → List Point
  | [] => [p]
  | q :: qs => if sc q < sc p then p :: q :: qs else q :: insertByScore sc p qs

/-- Sort points by score descending, as Qdrant orders search hits. -/
def sortByScoreDesc (sc : Point → Int) : List Point → List Point
  | [] => []
  | p :: ps => insertByScore sc p (sortByScoreDesc sc ps)

/-- The Qdrant `search(collection_name="llm_memory", query_vector=q_vec,
limit=k, filter=FieldCondition(key="session_id", match=MatchValue(session_id)))`
call of `get_context`: points whose payload session matches, ordered by
similarity score descending, truncated to `k` hits. -/
def qdrantSearch (score : List Nat → List Nat → Int) (pts : List Point)
    (q_vec : List Nat) (k : Nat) (session_id : String) : List Point :=
  (sortByScoreDesc (fun p => score q_vec p.vector)
    (pts.filter (fun p => decide (p.session_id = session_id)))).take k

/-- The ids of the search hits (`[hit.id for hit in hits]`). -/
def contextHitIds (encode : String → List Nat) (score : List Nat → List Nat → Int)
    (s : SysState) (session_id : String) (query : String) (k : Nat) : List Nat :=
  (qdrantSearch score s.points (encode query) k session_id).map Point.id

/-- `SapienClient.get_context(session_id, query, k=10)`: encode the query,
session-filtered vector search with limit `k`, then one batched Mongo
`find({"_id": {"$in": ids}})` returning the full documents (in store order,
ids not found in Mongo simply yield nothing). -/
def get_context (encode : String → List Nat) (score : List Nat → List Nat → Int)
    (s : SysState) (session_id : String) (query : String) (k : Nat := 10) :
    List (Nat × MsgDoc) :=
  let ids := contextHitIds encode score s session_id query k
  s.messages.filter (fun p => decide (p.1 ∈ ids))

/-- `SapienClient.ensure_collection()`: `create_collection("llm_memory",
VectorParams(size=384, distance=COSINE))` with any exception swallowed — in
particular an already-existing `llm_memory` collection leaves the state
unchanged and is treated as success. -/
def ensure_collection (s : SysState) : SysState :=
  if s.qdrantCollections.any (fun c => c.name == "llm_memory") then s
  else
    { s with
      qdrantCollections :=
        s.qdrantCollections ++ [{ name := "llm_memory", size := 384, distance := "Cosine" }] }

/-- `SapienClient.__aenter__`: the open step of the lifecycle.  It awaits
`ensure_collection()` and nothing else. -/
def aenterStep (s : SysState) : SysState :=
  ensure_collection s

/-- Mongo `create_index` (idempotent): add the index unless already present. -/
def createIndex (idxs : List MongoIndex) (i : MongoIndex) : List MongoIndex :=
  if i ∈ idxs then idxs else idxs ++ [i]

/-- The unique index on `session_id` for the sessions collection. -/
def sessionIdIndex : MongoIndex :=
  { keys := [("session_id", 1)], unique := true, expireAfterSeconds := none }

/-- The compound `(session_id asc, timestamp desc)` index for messages. -/
def compoundMsgIndex : MongoIndex :=
  { keys := [("session_id", 1), ("timestamp", -1)], unique := false,
    expireAfterSeconds := none }

/-- The TTL index keeping message history for 30 days
(`expireAfterSeconds = 60 * 60 * 24 * 30`). -/
def ttlMsgIndex : MongoIndex :=
  { keys := [("timestamp", -1)], unique := false,
    expireAfterSeconds := some (60 * 60 * 24 * 30) }

/-- `SapienClient.init_indexes()`: create the unique session index, the
compound message index and the 30-day TTL index.  Not called by
`aenterStep`; the source comment says "call once after construction". -/
def init_indexes (s : SysState) : SysState :=
  { s with
    sessionIndexes := createIndex s.sessionIndexes sessionIdIndex,
    messageIndexes :=
      createIndex (createIndex s.messageIndexes compoundMsgIndex) ttlMsgIndex }

/-- A burst of `n` successful `add_message` calls with no background task yet
executed (the event loop starved by the burst). -/
def ingestBurst : Nat → SysState
  | 0 => initState
  | n + 1 => (add_message true (ingestBurst n) "s1" "user" "hello" 0 none).2

/-- System invariant, established by `initState` and preserved by every
operation (see the preservation lemmas below):

* Mongo `_id`s are unique;
* every stored message id and every vector point id was assigned by the
  counter (is `< nextId`);
* a vector point's payload session agrees with the session of the message
  document of the same id, when that document exists. -/
structure Inv (s : SysState) : Prop where
  nodupKeys : (s.messages.map Prod.fst).Nodup
  msgFresh : ∀ p ∈ s.messages, p.1 < s.nextId
  ptFresh : ∀ pt ∈ s.points, pt.id < s.nextId
  agree : ∀ pt ∈ s.points, ∀ p ∈ s.messages, p.1 = pt.id →
    p.2.session_id = pt.session_id

/-! ### Helper lemmas about the store primitives -/

theorem findDoc_eq_of_mem {msgs : List (Nat × MsgDoc)}
    (hnd : (msgs.map Prod.fst).Nodup) {p : Nat × MsgDoc} (hp : p ∈ msgs) :
    findDoc msgs p.1 = some p.2 := by
  induction msgs with
  | nil => cases hp
  | cons q rest ih =>
    rcases List.mem_cons.mp hp with rfl | hp'
    · simp [findDoc]
    · have hq : q.1 ≠ p.1 := by
        intro he
        have : q.1 ∈ rest.map Prod.fst := he ▸ List.mem_map_of_mem Prod.fst hp'
        exact (List.nodup_cons.mp hnd).1 this
      have := ih (List.nodup_cons.mp hnd).2 hp'
      simpa [findDoc, List.find?_cons, hq] using this

theorem mem_of_findDoc {msgs : List (Nat × MsgDoc)} {mid : Nat} {d : MsgDoc}
    (h : findDoc msgs mid = some d) : (mid, d) ∈ msgs := by
  unfold findDoc at h
  rcases Option.map_eq_some'.mp h with ⟨p, hfind, rfl⟩
  have hmem := List.mem_of_find?_eq_some hfind
  have hkey : p.1 = mid := by
    have := List.find?_some hfind
    simpa using this
  simpa [← hkey] using hmem

theorem findDoc_append_old {msgs l : List (Nat × MsgDoc)} {mid : Nat} {d : MsgDoc}
    (h : findDoc msgs mid = some d) : findDoc (msgs ++ l) mid = some d := by
  unfold findDoc at h ⊢
  rcases Option.map_eq_some'.mp h with ⟨p, hfind, rfl⟩
  rw [List.find?_append, hfind]
  rfl

theorem findDoc_append_new {msgs : List (Nat × MsgDoc)} {i : Nat} {d : MsgDoc}
    (h : ∀ p ∈ msgs, p.1 ≠ i) : findDoc (msgs ++ [(i, d)]) i = some d := by
  induction msgs with
  | nil => simp [findDoc]
  | cons q rest ih =>
    have hq : q.1 ≠ i := h q (List.mem_cons_self q rest)
    have := ih (fun p hp => h p (List.mem_cons_of_mem q hp))
    simpa [findDoc, List.find?_cons, hq] using this

theorem map_fst_setEmbedding (msgs : List (Nat × MsgDoc)) (mid : Nat) (b : List Nat) :
    (setEmbedding msgs mid b).map Prod.fst = msgs.map Prod.fst := by
  induction msgs with
  | nil => rfl
  | cons q rest ih =>
    by_cases hq : q.1 = mid <;> simp [setEmbedding, hq] at ih ⊢ <;> exact ih

theorem mem_setEmbedding {msgs : List (Nat × MsgDoc)} {mid : Nat} {b : List Nat}
    {p : Nat × MsgDoc} (hp : p ∈ setEmbedding msgs mid b) :
    ∃ q ∈ msgs, p.1 = q.1 ∧ p.2.session_id = q.2.session_id ∧
      p.2.role = q.2.role ∧ p.2.content = q.2.content ∧
      p.2.timestamp = q.2.timestamp ∧
      (p.2.embedding = q.2.embedding ∨ p.2.embedding = some b) := by
  rcases List.mem_map.mp hp with ⟨q, hq, rfl⟩
  refine ⟨q, hq, ?_⟩
  by_cases h : q.1 = mid <;> simp [h]

theorem mem_insertByScore {sc : Point → Int} {p a : Point} {l : List Point} :
    a ∈ insertByScore sc p l ↔ a = p ∨ a ∈ l := by
  induction l with
  | nil => simp [insertByScore]
  | cons q qs ih =>
    by_cases h : sc q < sc p
    · simp [insertByScore, h]
    · simp [insertByScore, h, ih]
      tauto

theorem mem_sortByScoreDesc {sc : Point → Int} {a : Point} {l : List Point} :
    a ∈ sortByScoreDesc sc l ↔ a ∈ l := by
  induction l with
  | nil => simp [sortByScoreDesc]
  | cons q qs ih =>
    simp [sortByScoreDesc, mem_insertByScore, ih]

theorem length_insertByScore (sc : Point → Int) (p : Point) (l : List Point) :
    (insertByScore sc p l).length = l.length + 1 := by
  induction l with
  | nil => rfl
  | cons q qs ih =>
    by_cases h : sc q < sc p <;> simp [insertByScore, h, ih]

theorem length_sortByScoreDesc (sc : Point → Int) (l : List Point) :
    (sortByScoreDesc sc l).length = l.length := by
  induction l with
  | nil => rfl
  | cons q qs ih => simp [sortByScoreDesc, length_insertByScore, ih]

/-! ### The invariant is established initially and preserved by every
operation -/

theorem inv_initState : Inv initState := by
  refine ⟨by decide, ?_, ?_, ?_⟩ <;> intro p hp <;> cases hp

theorem inv_add_message {s : SysState} (h : Inv s) (w : Bool)
    (session_id role content : String) (now : Nat) (ts : Option Nat) :
    Inv (add_message w s session_id role content now ts).2 := by
  unfold add_message
  by_cases hrole : role ≠ "user" ∧ role ≠ "assistant"
  · simpa [hrole] using h
  · cases w
    · simpa [hrole] using h
    · simp only [hrole, if_false, if_true, Bool.true_eq_false]
      refine ⟨?_, ?_, ?_, ?_⟩ <;> dsimp only
      · rw [List.map_append]
        rw [List.nodup_append]
        refine ⟨h.nodupKeys, by simp, ?_⟩
        intro x hx hx'
        rcases List.mem_map.mp hx with ⟨p, hp, rfl⟩
        have := h.msgFresh p hp
        simp at hx'
        omega
      · intro p hp
        rcases List.mem_append.mp hp with hp' | hp'
        · have := h.msgFresh p hp'; omega
        · simp at hp'
          subst hp'
          omega
      · intro pt hpt
        have := h.ptFresh pt hpt; omega
      · intro pt hpt p hp hid
        rcases List.mem_append.mp hp with hp' | hp'
        · exact h.agree pt hpt p hp' hid
        · have hfresh := h.ptFresh pt hpt
          simp at hp'
          subst hp'
          simp at hid
          omega

theorem inv_embed_and_upsert {s : SysState} (h : Inv s)
    (encode : String → List Nat) (embedOk updateOk upsertOk : Bool) (mid : Nat) :
    Inv (embed_and_upsert encode embedOk updateOk upsertOk s mid).1 := by
  unfold embed_and_upsert
  cases hfd : findDoc s.messages mid with
  | none => exact h
  | some doc =>
    cases embedOk with
    | false => exact h
    | true =>
      cases updateOk with
      | false => exact h
      | true =>
        simp only [Bool.not_true, Bool.false_eq_true, if_false]
        have hmid : mid < s.nextId := h.msgFresh _ (mem_of_findDoc hfd)
        have hInv1 : Inv { s with
            messages := setEmbedding s.messages mid (vecToBytes (encode doc.content)) } := by
          refine ⟨?_, ?_, h.ptFresh, ?_⟩
          · rw [map_fst_setEmbedding]; exact h.nodupKeys
          · intro p hp
            rcases mem_setEmbedding hp with ⟨q, hq, hfst, _⟩
            rw [hfst]; exact h.msgFresh q hq
          · intro pt hpt p hp hid
            rcases mem_setEmbedding hp with ⟨q, hq, hfst, hsid, _⟩
            rw [hsid]
            exact h.agree pt hpt q hq (hfst ▸ hid)
        cases upsertOk with
        | false => exact hInv1
        | true =>
          simp only [Bool.not_true, Bool.false_eq_true, if_false]
          refine ⟨hInv1.nodupKeys, hInv1.msgFresh, ?_, ?_⟩
          · intro pt hpt
            rcases List.mem_append.mp hpt with hpt' | hpt'
            · exact h.ptFresh pt (List.mem_of_mem_filter hpt')
            · simp at hpt'
              rw [hpt']
              exact hmid
          · intro pt hpt p hp hid
            rcases List.mem_append.mp hpt with hpt' | hpt'
            · exact hInv1.agree pt (List.mem_of_mem_filter hpt') p hp hid
            · simp at hpt'
              subst hpt'
              rcases mem_setEmbedding hp with ⟨q, hq, hfst, hsid, _⟩
              have hq' : findDoc s.messages q.1 = some q.2 :=
                findDoc_eq_of_mem h.nodupKeys hq
              have hqmid : q.1 = mid := by rw [← hfst]; exact hid
              rw [hqmid, hfd] at hq'
              rw [hsid]
              simp only [Option.some.injEq] at hq'
              rw [hq']

theorem inv_runNextTask {s : SysState} (h : Inv s)
    (encode : String → List Nat) (embedOk updateOk upsertOk : Bool) :
    Inv (runNextTask encode embedOk updateOk upsertOk s).1 := by
  unfold runNextTask
  cases hp : s.pending with
  | nil => exact h
  | cons mid rest =>
    exact inv_embed_and_upsert
      (s := { s with pending := rest })
      ⟨h.nodupKeys, h.msgFresh, h.ptFresh, h.agree⟩
      encode embedOk updateOk upsertOk mid

/-! ### Concrete data used by the witnesses -/

/-- A tiny deterministic stand-in for the sentence-transformer model used when
instantiating theorems at concrete inputs. -/
def demoEncode (t : String) : List Nat :=
  [t.length % 4294967296]

/-- A tiny similarity score used when instantiating theorems at concrete
inputs. -/
def demoScore (q v : List Nat) : Int :=
  (q.length : Int) - (v.length : Int)

/-- A concrete state with two messages in different sessions, both embedded
and indexed. -/
def demoState : SysState :=
  { messages :=
      [(0, { session_id := "s1", role := "user", content := "I need a laptop",
             timestamp := 1, embedding := some [15] }),
       (1, { session_id := "s2", role := "assistant", content := "other session",
             timestamp := 2, embedding := some [13] })],
    points := [{ id := 0, vector := [15], session_id := "s1" },
               { id := 1, vector := [13], session_id := "s2" }],
    pending := [], nextId := 2,
    qdrantCollections := [{ name := "llm_memory", size := 384, distance := "Cosine" }],
    sessionIndexes := [], messageIndexes := [] }

/-! ### C1 -/

/-- C1: for every call `get_context(session_id, query, k)` (with `k`
defaulting to 10) on a state satisfying the system invariant, the returned
list contains at most `k` records, and every returned record's session
identifier equals the `session_id` argument — no record of a different
session is ever returned. -/
theorem get_context_at_most_k_and_session_scoped
    (encode : String → List Nat) (score : List Nat → List Nat → Int)
    (s : SysState) (hInv : Inv s) (session_id query : String) (k : Nat) :
    (get_context encode score s session_id query k).length ≤ k ∧
    (∀ p ∈ get_context encode score s session_id query k,
      p.2.session_id = session_id) ∧
    get_context encode score s session_id query =
      get_context encode score s session_id query 10 := by
  refine ⟨?_, ?_, rfl⟩
  · have hsubl : (s.messages.filter
        (fun p => decide (p.1 ∈ contextHitIds encode score s session_id query k))).Sublist
        s.messages := List.filter_sublist _
    have hnd : ((s.messages.filter
        (fun p => decide (p.1 ∈ contextHitIds encode score s session_id query k))).map
          Prod.fst).Nodup :=
      (hsubl.map Prod.fst).nodup hInv.nodupKeys
    have hsubset : ((s.messages.filter
        (fun p => decide (p.1 ∈ contextHitIds encode score s session_id query k))).map
          Prod.fst) ⊆ contextHitIds encode score s session_id query k := by
      intro x hx
      rcases List.mem_map.mp hx with ⟨p, hp, rfl⟩
      exact of_decide_eq_true (List.mem_filter.mp hp).2
    have hle1 := (List.subperm_of_subset hnd hsubset).length_le
    have hle2 : (contextHitIds encode score s session_id query k).length ≤ k := by
      unfold contextHitIds qdrantSearch
      simp [List.length_take]
    have hgc : get_context encode score s session_id query k =
        s.messages.filter
          (fun p => decide (p.1 ∈ contextHitIds encode score s session_id query k)) := rfl
    rw [hgc, ← List.length_map _ Prod.fst]
    omega
  · intro p hp
    have hmem := List.mem_filter.mp hp
    have hpid : p.1 ∈ contextHitIds encode score s session_id query k :=
      of_decide_eq_true hmem.2
    rcases List.mem_map.mp hpid with ⟨pt, hpt, hid⟩
    have hpt1 : pt ∈ sortByScoreDesc (fun q => score (encode query) q.vector)
        (s.points.filter (fun q => decide (q.session_id = session_id))) :=
      List.mem_of_mem_take hpt
    have hpt2 := mem_sortByScoreDesc.mp hpt1
    have hptmem := (List.mem_filter.mp hpt2).1
    have hsid : pt.session_id = session_id :=
      of_decide_eq_true (List.mem_filter.mp hpt2).2
    have := hInv.agree pt hptmem p hmem.1 hid.symm
    rw [this, hsid]

/-- Witness for C1: the concrete two-session state satisfies the invariant,
and a `k = 1` query on session `"s1"` obeys the bound and the scoping. -/
theorem get_context_at_most_k_and_session_scoped_witness :
    (get_context demoEncode demoScore demoState "s1" "laptop" 1).length ≤ 1 ∧
    (∀ p ∈ get_context demoEncode demoScore demoState "s1" "laptop" 1,
      p.2.session_id = "s1") ∧
    get_context demoEncode demoScore demoState "s1" "laptop" =
      get_context demoEncode demoScore demoState "s1" "laptop" 10 :=
  get_context_at_most_k_and_session_scoped demoEncode demoScore demoState
    ⟨by decide, by decide, by decide, by decide⟩ "s1" "laptop" 1

/-! ### C2 -/

/-- C2: for every valid `(session, role ∈ {user, assistant}, content)`,
`add_message` performs exactly one synchronous durable write — the single
appended document carrying the session, role, content and timestamp (the
timestamp defaulting to the current wall clock `now` when omitted) with the
embedding field absent — touches no vector data, and returns the newly
assigned identity; an immediate find-by-identity on that identity yields the
record with matching fields and an absent embedding field. -/
theorem add_message_durable_write
    (s : SysState) (hInv : Inv s) (session_id role content : String)
    (now : Nat) (timestamp : Option Nat)
    (hrole : role = "user" ∨ role = "assistant") :
    (add_message true s session_id role content now timestamp).1 =
      .ok s.nextId ∧
    (add_message true s session_id role content now timestamp).2.messages =
      s.messages ++ [(s.nextId,
        { session_id := session_id, role := role, content := content,
          timestamp := timestamp.getD now, embedding := none })] ∧
    (add_message true s session_id role content now timestamp).2.points =
      s.points ∧
    findDoc (add_message true s session_id role content now timestamp).2.messages
        s.nextId =
      some { session_id := session_id, role := role, content := content,
             timestamp := timestamp.getD now, embedding := none } := by
  have hr : ¬ (role ≠ "user" ∧ role ≠ "assistant") := by
    rcases hrole with h | h <;> simp [h]
  refine ⟨by simp [add_message, hr], by simp [add_message, hr],
    by simp [add_message, hr], ?_⟩
  have hmsgs : (add_message true s session_id role content now timestamp).2.messages =
      s.messages ++ [(s.nextId,
        { session_id := session_id, role := role, content := content,
          timestamp := timestamp.getD now, embedding := none })] := by
    simp [add_message, hr]
  rw [hmsgs]
  exact findDoc_append_new (fun p hp => Nat.ne_of_lt (hInv.msgFresh p hp))

/-- Witness for C2: adding a user message to the concrete state returns id 2
and an immediate lookup finds the exact document with no embedding field. -/
theorem add_message_durable_write_witness :
    (add_message true demoState "s1" "user" "hi" 7 none).1 = .ok demoState.nextId ∧
    (add_message true demoState "s1" "user" "hi" 7 none).2.messages =
      demoState.messages ++ [(demoState.nextId,
        { session_id := "s1", role := "user", content := "hi",
          timestamp := (none : Option Nat).getD 7, embedding := none })] ∧
    (add_message true demoState "s1" "user" "hi" 7 none).2.points =
      demoState.points ∧
    findDoc (add_message true demoState "s1" "user" "hi" 7 none).2.messages
        demoState.nextId =
      some { session_id := "s1", role := "user", content := "hi",
             timestamp := (none : Option Nat).getD 7, embedding := none } :=
  add_message_durable_write demoState
    ⟨by decide, by decide, by decide, by decide⟩ "s1" "user" "hi" 7 none
    (Or.inl rfl)

/-! ### C3 -/

/-- C3: for every call to `add_message` with a role that is neither `"user"`
nor `"assistant"`, the operation fails immediately with the invalid-argument
error and the state is untouched — no record is ever written, whether or not
the store would have accepted a write. -/
theorem add_message_invalid_role_no_write
    (writeOk : Bool) (s : SysState) (session_id role content : String)
    (now : Nat) (timestamp : Option Nat)
    (h1 : role ≠ "user") (h2 : role ≠ "assistant") :
    add_message writeOk s session_id role content now timestamp =
      (.error .invalidRole, s) := by
  simp [add_message, h1, h2]

/-- Witness for C3: the role `"system"` is rejected with no write. -/
theorem add_message_invalid_role_no_write_witness :
    add_message true demoState "s1" "system" "hi" 7 none =
      (.error .invalidRole, demoState) :=
  add_message_invalid_role_no_write true demoState "s1" "system" "hi" 7 none
    (by decide) (by decide)

/-! ### C4 -/

/-- C4: for every `add_message` call with a valid role, exactly one
background embedding task is scheduled if and only if the durable write
succeeds: on success the pending-task queue grows by exactly the new id and
the id is returned; if the durable write fails, the store error propagates to
the caller and the state — pending queue included — is left untouched. -/
theorem add_message_schedules_one_task_iff_write_succeeds
    (s : SysState) (session_id role content : String)
    (now : Nat) (timestamp : Option Nat)
    (hrole : role = "user" ∨ role = "assistant") :
    (add_message true s session_id role content now timestamp).2.pending =
      s.pending ++ [s.nextId] ∧
    (add_message true s session_id role content now timestamp).1 =
      .ok s.nextId ∧
    add_message false s session_id role content now timestamp =
      (.error .storeUnavailable, s) := by
  have hr : ¬ (role ≠ "user" ∧ role ≠ "assistant") := by
    rcases hrole with h | h <;> simp [h]
  exact ⟨by simp [add_message, hr], by simp [add_message, hr],
    by simp [add_message, hr]⟩

/-- Witness for C4: one task is scheduled on a successful write; a failed
write propagates the store error and schedules nothing. -/
theorem add_message_schedules_one_task_iff_write_succeeds_witness :
    (add_message true demoState "s1" "user" "hi" 7 none).2.pending =
      demoState.pending ++ [demoState.nextId] ∧
    (add_message true demoState "s1" "user" "hi" 7 none).1 =
      .ok demoState.nextId ∧
    add_message false demoState "s1" "user" "hi" 7 none =
      (.error .storeUnavailable, demoState) :=
  add_message_schedules_one_task_iff_write_succeeds demoState "s1" "user" "hi"
    7 none (Or.inl rfl)

/-! ### C5 -/

/-- C5: a background embedding task whose message is absent when re-read by
identity aborts silently — state unchanged, no error surfaced; and whatever
errors occur during embedding, the durable record update or the vector upsert
(any combination of the failure flags), the result visible to the original
`add_message` caller is exactly the one of an error-free run: background
errors are never raised to that caller. -/
theorem background_errors_never_reach_caller
    (encode : String → List Nat) (embedOk updateOk upsertOk : Bool)
    (s : SysState) (mid : Nat) (session_id role content : String)
    (now : Nat) (timestamp : Option Nat) :
    (findDoc s.messages mid = none →
      embed_and_upsert encode embedOk updateOk upsertOk s mid = (s, none)) ∧
    (addMessageThenTask encode embedOk updateOk upsertOk s
        session_id role content now timestamp).1 =
      (addMessageThenTask encode true true true s
        session_id role content now timestamp).1 := by
  constructor
  · intro habs
    unfold embed_and_upsert
    rw [habs]
  · unfold addMessageThenTask
    rcases add_message true s session_id role content now timestamp with ⟨r, s1⟩
    cases r <;> rfl

/-- Witness for C5: a task for the unknown id 99 aborts silently on the
concrete state, and an `add_message` whose background task fails at every
step still gives the caller the same result as an error-free run. -/
theorem background_errors_never_reach_caller_witness :
    embed_and_upsert demoEncode false false false demoState 99 =
      (demoState, none) ∧
    (addMessageThenTask demoEncode false false false demoState
        "s1" "user" "hi" 7 none).1 =
      (addMessageThenTask demoEncode true true true demoState
        "s1" "user" "hi" 7 none).1 :=
  ⟨(background_errors_never_reach_caller demoEncode false false false demoState
      99 "s1" "user" "hi" 7 none).1 (by decide),
   (background_errors_never_reach_caller demoEncode false false false demoState
      99 "s1" "user" "hi" 7 none).2⟩

/-! ### C6 -/

/-- C6: `get_context` on a session with no vector-index entries returns the
empty list rather than raising; and in general a record is returned exactly
when it is present in the Record Store with its id among the vector hits —
a hit whose id is no longer in the store contributes nothing (it is silently
dropped) instead of failing the call. -/
theorem get_context_graceful_degradation
    (encode : String → List Nat) (score : List Nat → List Nat → Int)
    (s : SysState) (session_id query : String) (k : Nat) :
    (s.points.filter (fun p => decide (p.session_id = session_id)) = [] →
      get_context encode score s session_id query k = []) ∧
    (∀ p, p ∈ get_context encode score s session_id query k ↔
      p ∈ s.messages ∧
        p.1 ∈ contextHitIds encode score s session_id query k) := by
  constructor
  · intro hempty
    have hids : contextHitIds encode score s session_id query k = [] := by
      unfold contextHitIds qdrantSearch
      rw [hempty]
      simp [sortByScoreDesc]
    have hgc : get_context encode score s session_id query k =
        s.messages.filter
          (fun p => decide (p.1 ∈ contextHitIds encode score s session_id query k)) := rfl
    rw [hgc, hids]
    simp
  · intro p
    have hgc : get_context encode score s session_id query k =
        s.messages.filter
          (fun p => decide (p.1 ∈ contextHitIds encode score s session_id query k)) := rfl
    rw [hgc]
    simp [List.mem_filter]

/-- Witness for C6: on the concrete state, session `"s3"` has no vector
entries and retrieval returns the empty list, not an error. -/
theorem get_context_graceful_degradation_witness :
    get_context demoEncode demoScore demoState "s3" "anything" 5 = [] :=
  (get_context_graceful_degradation demoEncode demoScore demoState "s3"
      "anything" 5).1 (by decide)

/-! ### C7 -/

theorem findDoc_cons (x : Nat × MsgDoc) (l : List (Nat × MsgDoc)) (mid : Nat) :
    findDoc (x :: l) mid = if x.1 = mid then some x.2 else findDoc l mid := by
  by_cases h : x.1 = mid <;> simp [findDoc, List.find?_cons, h]

theorem findDoc_setEmbedding (msgs : List (Nat × MsgDoc)) (tid mid : Nat)
    (b : List Nat) :
    findDoc (setEmbedding msgs tid b) mid =
      (findDoc msgs mid).map
        (fun d => if mid = tid then { d with embedding := some b } else d) := by
  induction msgs with
  | nil => rfl
  | cons q rest ih =>
    have hcons : setEmbedding (q :: rest) tid b =
        (if q.1 = tid then (q.1, { q.2 with embedding := some b }) else q) ::
          setEmbedding rest tid b := rfl
    rw [hcons]
    by_cases ht : q.1 = tid
    · rw [if_pos ht, findDoc_cons, findDoc_cons]
      by_cases hm : q.1 = mid
      · have hmt : mid = tid := hm ▸ ht
        simp [hm, hmt]
      · simp only [hm, if_false]
        exact ih
    · rw [if_neg ht, findDoc_cons, findDoc_cons]
      by_cases hm : q.1 = mid
      · have hmt : ¬ mid = tid := fun he => ht (by rw [hm, he])
        simp [hm, hmt]
      · simp only [hm, if_false]
        exact ih

/-- C7: no pipeline operation modifies the content, role, session identifier
or timestamp of an existing message record: `add_message` leaves every
existing record untouched, and the background update of `embed_and_upsert`
either leaves a record untouched or sets exactly its embedding field — to the
one value determined by the record's (immutable) content — so the embedding
field only ever moves from absent to that present value. -/
theorem message_fields_immutable
    (s : SysState) (mid : Nat) (doc : MsgDoc)
    (hfd : findDoc s.messages mid = some doc) :
    (∀ (w : Bool) (session_id role content : String) (now : Nat)
        (ts : Option Nat),
      findDoc (add_message w s session_id role content now ts).2.messages mid =
        some doc) ∧
    (∀ (encode : String → List Nat) (embedOk updateOk upsertOk : Bool)
        (tid : Nat),
      ∃ d, findDoc
          (embed_and_upsert encode embedOk updateOk upsertOk s tid).1.messages
          mid = some d ∧
        d.session_id = doc.session_id ∧ d.role = doc.role ∧
        d.content = doc.content ∧ d.timestamp = doc.timestamp ∧
        (d.embedding = doc.embedding ∨
          d.embedding = some (vecToBytes (encode doc.content)))) := by
  constructor
  · intro w session_id role content now ts
    unfold add_message
    by_cases hr : role ≠ "user" ∧ role ≠ "assistant"
    · simpa [hr] using hfd
    · cases w
      · simpa [hr] using hfd
      · simp only [hr, if_false, if_true, Bool.true_eq_false]
        exact findDoc_append_old hfd
  · intro encode embedOk updateOk upsertOk tid
    unfold embed_and_upsert
    cases hft : findDoc s.messages tid with
    | none => exact ⟨doc, hfd, rfl, rfl, rfl, rfl, Or.inl rfl⟩
    | some doc0 =>
      cases embedOk with
      | false => exact ⟨doc, hfd, rfl, rfl, rfl, rfl, Or.inl rfl⟩
      | true =>
        cases updateOk with
        | false => exact ⟨doc, hfd, rfl, rfl, rfl, rfl, Or.inl rfl⟩
        | true =>
          have hset : findDoc
              (setEmbedding s.messages tid (vecToBytes (encode doc0.content)))
              mid =
            some (if mid = tid
              then { doc with
                      embedding := some (vecToBytes (encode doc0.content)) }
              else doc) := by
            rw [findDoc_setEmbedding, hfd]
            by_cases hmt : mid = tid <;> simp [hmt]
          by_cases hmt : mid = tid
          · have hdoc0 : doc0 = doc := by
              rw [hmt] at hfd
              rw [hft] at hfd
              exact (Option.some.injEq _ _ ▸ hfd).symm ▸ rfl
            cases upsertOk with
            | false =>
              refine ⟨_, by simpa using hset, ?_⟩
              simp [hmt, hdoc0]
            | true =>
              refine ⟨_, by simpa using hset, ?_⟩
              simp [hmt, hdoc0]
          · cases upsertOk with
            | false =>
              refine ⟨_, by simpa using hset, ?_⟩
              simp [hmt]
            | true =>
              refine ⟨_, by simpa using hset, ?_⟩
              simp [hmt]

/-- Witness for C7: the fields of the stored message 0 of the concrete state
survive an unrelated `add_message` and a background run for message 1. -/
theorem message_fields_immutable_witness :
    (∀ (w : Bool) (session_id role content : String) (now : Nat)
        (ts : Option Nat),
      findDoc (add_message w demoState session_id role content now ts).2.messages
          0 =
        some { session_id := "s1", role := "user", content := "I need a laptop",
               timestamp := 1, embedding := some [15] }) ∧
    (∀ (encode : String → List Nat) (embedOk updateOk upsertOk : Bool)
        (tid : Nat),
      ∃ d, findDoc
          (embed_and_upsert encode embedOk updateOk upsertOk demoState
            tid).1.messages 0 = some d ∧
        d.session_id = "s1" ∧ d.role = "user" ∧
        d.content = "I need a laptop" ∧ d.timestamp = 1 ∧
        (d.embedding = some [15] ∨
          d.embedding = some (vecToBytes (encode "I need a laptop")))) :=
  message_fields_immutable demoState 0
    { session_id := "s1", role := "user", content := "I need a laptop",
      timestamp := 1, embedding := some [15] } (by decide)

/-! ### C8 -/

theorem mem_createIndex_self (idxs : List MongoIndex) (i : MongoIndex) :
    i ∈ createIndex idxs i := by
  unfold createIndex
  by_cases h : i ∈ idxs <;> simp [h]

theorem mem_createIndex_of_mem {idxs : List MongoIndex} {j : MongoIndex}
    (i : MongoIndex) (h : j ∈ idxs) : j ∈ createIndex idxs i := by
  unfold createIndex
  by_cases hi : i ∈ idxs <;> simp [hi, h]

/-- C8, counterexample: on a fresh deployment, the open step of the lifecycle
(`__aenter__`, i.e. `aenterStep`) does create the Vector Index collection but
creates none of the Record Store indexes — the claim that the open step also
ensures the session, compound and TTL indexes is false (they require the
separate `init_indexes` call). -/
theorem open_step_counterexample :
    ¬ (({ name := "llm_memory", size := 384, distance := "Cosine" } : QCollection) ∈
          (aenterStep initState).qdrantCollections ∧
        sessionIdIndex ∈ (aenterStep initState).sessionIndexes ∧
        compoundMsgIndex ∈ (aenterStep initState).messageIndexes ∧
        ttlMsgIndex ∈ (aenterStep initState).messageIndexes) := by
  decide

/-- C8, amended: the open step ensures only the Vector Index collection
`llm_memory` with dimensionality 384 and cosine distance, treating an
already-existing collection as success (state unchanged), and touches no
Record Store index; the unique session-identifier index, the compound
(session identifier, timestamp descending) index and the 30-day TTL index
are created by the separate `init_indexes` operation. -/
theorem open_step_provisioning
    (s : SysState) :
    ((∀ c ∈ s.qdrantCollections, c.name ≠ "llm_memory") →
      (aenterStep s).qdrantCollections =
        s.qdrantCollections ++
          [{ name := "llm_memory", size := 384, distance := "Cosine" }]) ∧
    ((∃ c ∈ s.qdrantCollections, c.name = "llm_memory") → aenterStep s = s) ∧
    (aenterStep s).sessionIndexes = s.sessionIndexes ∧
    (aenterStep s).messageIndexes = s.messageIndexes ∧
    sessionIdIndex ∈ (init_indexes s).sessionIndexes ∧
    compoundMsgIndex ∈ (init_indexes s).messageIndexes ∧
    ttlMsgIndex ∈ (init_indexes s).messageIndexes := by
  refine ⟨?_, ?_, ?_, ?_, ?_, ?_, ?_⟩
  · intro h
    have hany : s.qdrantCollections.any (fun c => c.name == "llm_memory") =
        false := by
      rw [List.any_eq_false]
      intro c hc
      simpa using h c hc
    simp [aenterStep, ensure_collection, hany]
  · rintro ⟨c, hc, hname⟩
    have hany : s.qdrantCollections.any (fun c => c.name == "llm_memory") =
        true :=
      List.any_eq_true.mpr ⟨c, hc, by simpa using hname⟩
    simp [aenterStep, ensure_collection, hany]
  · unfold aenterStep ensure_collection
    split <;> rfl
  · unfold aenterStep ensure_collection
    split <;> rfl
  · exact mem_createIndex_self _ _
  · exact mem_createIndex_of_mem _ (mem_createIndex_self _ _)
  · exact mem_createIndex_self _ _

/-- Witness for the amended C8: on the fresh deployment the open step creates
exactly the 384-dimensional cosine collection, and `init_indexes` creates the
three Record Store indexes. -/
theorem open_step_provisioning_witness :
    (aenterStep initState).qdrantCollections =
      initState.qdrantCollections ++
        [{ name := "llm_memory", size := 384, distance := "Cosine" }] ∧
    sessionIdIndex ∈ (init_indexes initState).sessionIndexes ∧
    compoundMsgIndex ∈ (init_indexes initState).messageIndexes ∧
    ttlMsgIndex ∈ (init_indexes initState).messageIndexes :=
  ⟨(open_step_provisioning initState).1 (by decide),
   (open_step_provisioning initState).2.2.2.2.1,
   (open_step_provisioning initState).2.2.2.2.2.1,
   (open_step_provisioning initState).2.2.2.2.2.2⟩

/-! ### C9 -/

theorem burst_pending_length (n : Nat) :
    ((ingestBurst n).pending).length = n := by
  induction n with
  | zero => rfl
  | succ n ih =>
    have hstep : ingestBurst (n + 1) =
        (add_message true (ingestBurst n) "s1" "user" "hello" 0 none).2 := rfl
    have hr : ¬ (("user" : String) ≠ "user" ∧ ("user" : String) ≠ "assistant") := by
      simp
    rw [hstep]
    simp [add_message, hr, ih]

/-- C9, counterexample: the code schedules background embedding tasks with a
bare fire-and-forget `create_task` — no worker pool, semaphore or
configuration surface exists, so no bound `N` caps the number of in-flight
(scheduled, unexecuted) embedding tasks across all workloads: a burst of
`N + 1` ingestions leaves `N + 1` tasks in flight. -/
theorem no_bound_on_inflight_tasks :
    ¬ ∃ N : Nat, ∀ n : Nat, ((ingestBurst n).pending).length ≤ N := by
  rintro ⟨N, h⟩
  have hlen := h (N + 1)
  rw [burst_pending_length] at hlen
  omega

/-- C9, amended: background embedding tasks are launched fire-and-forget with
no concurrency limit: a burst of `n` successful `add_message` calls leaves
exactly `n` in-flight background tasks, one per call, unboundedly in `n`. -/
theorem inflight_tasks_grow_per_call (n : Nat) :
    ((ingestBurst n).pending).length = n :=
  burst_pending_length n

/-! ### C10 -/

theorem bytesToF32s_vecToBytes {v : List Nat}
    (h : ∀ w ∈ v, w < 4294967296) :
    bytesToF32s (vecToBytes v) = v := by
  induction v with
  | nil => rfl
  | cons w ws ih =>
    have hw : w < 4294967296 := h w (List.mem_cons_self w ws)
    have hrest := ih (fun x hx => h x (List.mem_cons_of_mem w hx))
    have hexp : bytesToF32s (vecToBytes (w :: ws)) =
        (w % 256 + 256 * (w / 256 % 256) + 65536 * (w / 65536 % 256) +
          16777216 * (w / 16777216 % 256)) :: bytesToF32s (vecToBytes ws) := rfl
    rw [hexp, hrest]
    congr 1
    omega

/-- C10: on a successful background embedding run for a message, the bytes
stored in the durable record and the vector upserted into the Vector Index
agree: the record's embedding becomes exactly the serialised bytes of the
encoded vector, the upserted point carries that vector (with the message's
session in its payload), and decoding the stored bytes as 32-bit
little-endian words gives back exactly the upserted vector. -/
theorem stored_bytes_decode_to_upserted_vector
    (encode : String → List Nat) (s : SysState) (mid : Nat) (doc : MsgDoc)
    (hfd : findDoc s.messages mid = some doc)
    (h32 : ∀ w ∈ encode doc.content, w < 4294967296) :
    findDoc (embed_and_upsert encode true true true s mid).1.messages mid =
      some { doc with embedding := some (vecToBytes (encode doc.content)) } ∧
    ({ id := mid, vector := encode doc.content,
       session_id := doc.session_id } : Point) ∈
      (embed_and_upsert encode true true true s mid).1.points ∧
    bytesToF32s (vecToBytes (encode doc.content)) = encode doc.content := by
  unfold embed_and_upsert
  rw [hfd]
  simp only [Bool.not_true, Bool.false_eq_true, if_false]
  refine ⟨?_, ?_, bytesToF32s_vecToBytes h32⟩
  · rw [findDoc_setEmbedding, hfd]
    simp
  · unfold upsertPoint
    simp

/-- Witness for C10: running the background task for message 0 of the
concrete state stores bytes that decode back to the upserted vector. -/
theorem stored_bytes_decode_to_upserted_vector_witness :
    findDoc (embed_and_upsert demoEncode true true true demoState 0).1.messages
        0 =
      some { session_id := "s1", role := "user", content := "I need a laptop",
             timestamp := 1,
             embedding := some (vecToBytes (demoEncode "I need a laptop")) } ∧
    ({ id := 0, vector := demoEncode "I need a laptop",
       session_id := "s1" } : Point) ∈
      (embed_and_upsert demoEncode true true true demoState 0).1.points ∧
    bytesToF32s (vecToBytes (demoEncode "I need a laptop")) =
      demoEncode "I need a laptop" :=
  stored_bytes_decode_to_upserted_vector demoEncode demoState 0
    { session_id := "s1", role := "user", content := "I need a laptop",
      timestamp := 1, embedding := some [15] } (by decide) (by decide)

end Sapien
